import Mathlib

/-!
Verification of the batch-image assembly layer (`src/dataset/batch_image.py`)
and of the classification-metrics contract exercised by
`src/batchflow/tests/classification_metrics_test.py`.

Images are modelled as rectangular rank-3 arrays (rows x columns x channels)
of rational pixel values; numpy arrays are rectangular by construction, so
rectangularity appears as a hypothesis where a theorem needs it.  Randomness
is modelled by passing every uniform draw explicitly into the function that
consumes it, mirroring the call sites of the process-wide generator.
-/

namespace BatchImage

/-- A pixel value.  The source stores uint8 intensities and converts to int16
for the invert arithmetic; all values stay far from both bounds, so rationals
embed the arithmetic exactly. -/
abbrev Pixel := Rat

/-- A single image: rows of columns of channel values (numpy `(H, W, C)`). -/
abbrev Img := List (List Pixel)

/-- The errors the embedded Python code can raise. -/
inductive PyError where
  | valueError (msg : String)
  | runtimeError (msg : String)
  | unboundLocal (var : String)
  | attributeError (name : String)
deriving DecidableEq

/-- The data an exception object carries (its `args` message); used to state
what information a raised error does or does not include. -/
def PyError.payload : PyError → String
  | .valueError m => m
  | .runtimeError m => m
  | .unboundLocal v => ("local variable ") ++ v ++ (" referenced before assignment")
  | .attributeError n => ("object has no attribute ") ++ n

/-- Substring test, embedding the Python expression `needle in haystack`. -/
def strContains (hay needle : String) : Bool :=
  hay.data.tails.any (fun suf => needle.data.isPrefixOf suf)

end BatchImage

namespace BatchImage

/-- An image is a rank-3 array `rows x cols x chans`. -/
abbrev Img3 := List (List (List Pixel))

/-- `image.shape[0]` (number of rows). -/
def rowsOf (a : Img3) : Nat := a.length

/-- `image.shape[1]` (number of columns, read off the first row as numpy
shape does for a rectangular array). -/
def colsOf (a : Img3) : Nat := (a.headD []).length

/-- `image.shape[2]` (number of channels, read off the first pixel). -/
def chansOf (a : Img3) : Nat := ((a.headD []).headD []).length

/-- `image.shape` for a rank-3 array. -/
def shape3 (a : Img3) : Nat × Nat × Nat := (rowsOf a, colsOf a, chansOf a)

/-- Rectangularity: every row has the common column count and every pixel the
common channel count.  Every numpy array satisfies this. -/
def wfImg (a : Img3) : Prop :=
  ∀ r ∈ a, r.length = colsOf a ∧ ∀ pix ∈ r, pix.length = chansOf a

instance (a : Img3) : Decidable (wfImg a) := by
  unfold wfImg; infer_instance

/-- Embedding of `np.stack(all_res)` on a list of rank-3 arrays: succeeds,
producing the stacked array with a leading item axis, exactly when all items
share one shape; raises `ValueError` with the numpy messages otherwise. -/
def npStack (all_res : List Img3) : Except PyError (List Img3) :=
  match all_res with
  | [] => .error (.valueError ("need at least one array to stack"))
  | x :: rest =>
    if _h : ∀ a ∈ x :: rest, shape3 a = shape3 x then .ok (x :: rest)
    else .error (.valueError ("all input arrays must have the same shape"))

/-- Minimum of one shape dimension `f` across a non-empty list of arrays
(one column of `np.array([x.shape for x in all_res]).min(axis=0)`). -/
def minDim (f : Img3 → Nat) (xs : List Img3) : Nat :=
  match xs with
  | [] => 0
  | x :: rest => rest.foldl (fun m a => min m (f a)) (f x)

/-- Embedding of `np.array([x.shape for x in all_res]).min(axis=0)`:
the elementwise minimum shape across the items. -/
def minShape (xs : List Img3) : Nat × Nat × Nat :=
  (minDim rowsOf xs, minDim colsOf xs, minDim chansOf xs)

/-- Embedding of the top-left crop `arr[:r, :c]` used by the shape-mismatch
recovery (the trailing channel axis is left untouched, as in the source). -/
def cropTL (a : Img3) (r c : Nat) : Img3 :=
  (a.take r).map (fun row => row.take c)

/-- A batch object: its named components, as an attribute map
(`setattr`/`getattr` on component names). -/
structure ImagesBatch where
  comps : List (String × List Img3)
deriving DecidableEq

/-- Attribute lookup on the component map (`getattr(self, name)`). -/
def getComps : List (String × List Img3) → String → Option (List Img3)
  | [], _ => none
  | (k, w) :: rest, n => if k = n then some w else getComps rest n

/-- Attribute update on the component map (`setattr(self, name, v)`). -/
def setComps : List (String × List Img3) → String → List Img3 → List (String × List Img3)
  | [], n, v => [(n, v)]
  | (k, w) :: rest, n, v => if k = n then (n, v) :: rest else (k, w) :: setComps rest n v

/-- `getattr(self, name)` for a batch. -/
def batchGet (b : ImagesBatch) (name : String) : Option (List Img3) :=
  getComps b.comps name

/-- `setattr(self, name, v)` for a batch. -/
def setattr (b : ImagesBatch) (name : String) (v : List Img3) : ImagesBatch :=
  ⟨setComps b.comps name v⟩

/-- One outcome per batch item delivered by the parallel-map collaborator:
a produced value or a captured failure (the failure is rendered as the string
carrying the original exception information). -/
inductive PerItemResult where
  | ok (val : Img3)
  | failed (err : String)
deriving DecidableEq

/-- Modelled from the spec: `any_action_failed` (from the `decorators`
module, which is not under `src/`) reports whether any per-item result is a
captured failure. -/
def any_action_failed (all_res : List PerItemResult) : Bool :=
  all_res.any fun r => match r with | .failed _ => true | .ok _ => false

/-- Modelled from the spec: `self.get_errors` (from the `Batch` base class,
which is not under `src/`) extracts the captured failures, in order. -/
def get_errors (all_res : List PerItemResult) : List String :=
  all_res.filterMap fun r => match r with | .failed e => some e | .ok _ => none

/-- The produced values of a result list (what `all_res` holds once no item
failed). -/
def valuesOf (all_res : List PerItemResult) : List Img3 :=
  all_res.filterMap fun r => match r with | .ok v => some v | .failed _ => none

/-- The line printed by `traceback.print_tb` for a captured failure. -/
def tracebackOf (e : String) : String := ("Traceback (most recent call last): ") ++ e

/-- The observable outcome of calling a method on the batch object: the state
of `self` after the call (mutations persist even past a raise), the lines
printed to stdout, and the returned value or raised error. -/
structure PyOutcome (α : Type) where
  self : ImagesBatch
  printed : List String
  result : Except PyError α

instance {ε α : Type} [DecidableEq ε] [DecidableEq α] : DecidableEq (Except ε α) := fun a b =>
  match a, b with
  | .ok x, .ok y =>
    if h : x = y then isTrue (by rw [h]) else isFalse (fun hh => h (Except.ok.inj hh))
  | .ok _, .error _ => isFalse (fun hh => Except.noConfusion hh)
  | .error _, .ok _ => isFalse (fun hh => Except.noConfusion hh)
  | .error x, .error y =>
    if h : x = y then isTrue (by rw [h]) else isFalse (fun hh => h (Except.error.inj hh))

instance [DecidableEq α] : DecidableEq (PyOutcome α) := fun a b =>
  match a, b with
  | ⟨s1, p1, r1⟩, ⟨s2, p2, r2⟩ =>
    decidable_of_iff (s1 = s2 ∧ p1 = p2 ∧ r1 = r2) (by rw [PyOutcome.mk.injEq])

namespace ImagesBatch

/-- Embedding of `ImagesBatch.assemble_component`: stack the per-item values;
on a `ValueError` whose message contains `"must have the same shape"`, crop
every item to the minimum shape over rows and columns and retry the stack; a
second failure propagates.  A `ValueError` without that substring is caught
and falls through the `if`, so the final `setattr` reads the never-assigned
local `new_images` and raises `UnboundLocalError`. -/
def assemble_component (b : ImagesBatch) (all_res : List Img3) (components : String) :
    Except PyError ImagesBatch :=
  match npStack all_res with
  | .ok new_images => .ok (setattr b components new_images)
  | .error e =>
    match e with
    | .valueError message =>
      if strContains message ("must have the same shape") then
        let min_shape := minShape all_res
        let cropped := all_res.map (fun arr => cropTL arr min_shape.1 min_shape.2.1)
        match npStack cropped with
        | .ok new_images => .ok (setattr b components new_images)
        | .error e2 => .error e2
      else .error (.unboundLocal ("new_images"))
    | _ => .error e

/-- Embedding of `ImagesBatch.assemble` for a single named component (the
list/tuple variant zips the results and loops the same per-component
assembly; the failure branch precedes it and is identical).  If any item
failed: print the list of captured failures, print the traceback of the
first one, and raise `RuntimeError("Could not assemble the batch")` without
touching the batch.  Otherwise assemble the component and return `self`. -/
def assemble (b : ImagesBatch) (all_res : List PerItemResult) (components : String) :
    PyOutcome ImagesBatch :=
  if any_action_failed all_res then
    let all_errors := get_errors all_res
    { self := b
      printed := all_errors ++ [tracebackOf (all_errors.headD (""))]
      result := .error (.runtimeError ("Could not assemble the batch")) }
  else
    match assemble_component b (valuesOf all_res) components with
    | .ok b2 => { self := b2, printed := [], result := .ok b2 }
    | .error e => { self := b, printed := [], result := .error e }

end ImagesBatch

/-- Embedding of `ImagesBatch.get_image_shape`: `image.shape[:2]`. -/
def ImagesBatch.get_image_shape (image : Img3) : Nat × Nat := (rowsOf image, colsOf image)

/-- Embedding of `ImagesBatch._flip_image`: `image[:, ::-1]` for a
left/right flip, `image[::-1]` upside down; any other mode falls off the end
of the function and returns `None`. -/
def ImagesBatch.flip_image_ (image : Img3) (mode : String) : Option Img3 :=
  if mode = "lr" then some (image.map (fun row => row.reverse))
  else if mode = "ud" then some image.reverse
  else none

/-- Embedding of the elementwise channel arithmetic of
`ImagesBatch._invert` along one pixel: channel `ch` of the pixel becomes
`|inv_multiplier[ch] - v|` where the multiplier is 255 on the selected
channels and 0 elsewhere (the int16 arithmetic never overflows for uint8
inputs, so exact arithmetic embeds it). -/
def invPix (channels : List Nat) : Nat → List Pixel → List Pixel
  | _, [] => []
  | ch, v :: rest => |(if ch ∈ channels then (255 : Pixel) else 0) - v| :: invPix channels (ch + 1) rest

/-- Embedding of `ImagesBatch._invert image channels`. -/
def ImagesBatch.invert_ (image : Img3) (channels : List Nat) : Img3 :=
  image.map (fun row => row.map (fun pix => invPix channels 0 pix))

/-- The indices selected by `np.where(draws > ps)[0]` for two equal-length
vectors. -/
def npWhereGt (draws ps : List Rat) : List Nat :=
  ((draws.zip ps).enum.filter (fun x => decide (x.2.1 > x.2.2))).map (fun x => x.1)

/-- Round to nearest integer, ties to even (`np.round`). -/
def npRound (q : Rat) : Int :=
  let f := Int.floor q
  let frac := q - f
  if frac < 1/2 then f else if 1/2 < frac then f + 1 else if f % 2 = 0 then f else f + 1

/-- Wrap an integer into int16 range (`astype(np.int16)`). -/
def toInt16 (n : Int) : Int := ((n + 2 ^ 15) % 2 ^ 16 + 2 ^ 16) % 2 ^ 16 - 2 ^ 15

/-- The `origin` argument of scale: a string or an explicit tuple. -/
inductive OriginArg where
  | str (s : String)
  | pair (r c : Int)
deriving DecidableEq

/-- Embedding of `isinstance(origin, str) and origin not in allowed`. -/
def originCheck (allowed : List String) (origin : OriginArg) : Bool :=
  match origin with
  | .str s => decide (s ∉ allowed)
  | .pair _ _ => false

/-- Selective per-pixel inversion, indexed by a channel predicate: channel
`ch` becomes `255 - v` when selected and stays `v` otherwise.  This is the
form the claim about `invert` describes; the theorems relate it to the
multiplier arithmetic of `ImagesBatch._invert`. -/
def selPix (sel : Nat → Bool) : Nat → List Pixel → List Pixel
  | _, [] => []
  | ch, v :: rest => (if sel ch then 255 - v else v) :: selPix sel (ch + 1) rest

/-- An image with exactly the channels chosen by `sel` inverted. -/
def invertedImage (image : Img3) (sel : Nat → Bool) : Img3 :=
  image.map (fun row => row.map (fun pix => selPix sel 0 pix))

namespace BaseImagesBatch

/-- Embedding of the per-item body of `BaseImagesBatch.scale` (the batch
decorator runs it once per item; `image` is `self.get(ix, components)`).
The backend methods `self._resize_image` and `self._preserve_shape` are
dispatched dynamically to the child class, so they enter as parameters; the
uniform draws enter as `draw` (the apply-or-not draw) and `factorDraw`
(`np.random.uniform(*factor)`; the `(tuple_1, tuple_2)` per-axis variant
differs only in how this number is sampled).  When the transform is not
applied (`draw < p` fails) control reaches `return rescaled_image` with the
local never assigned, raising `UnboundLocalError`. -/
def scale (resize_image : Img3 → Int × Int → Img3)
    (preserve_shape_fn : Img3 → Img3 → OriginArg → Img3)
    (image : Img3) (p : Rat) (factor : List Rat) (preserve_shape : Bool)
    (origin : OriginArg) (draw factorDraw : Rat) : Except PyError Img3 :=
  if p > 1 ∨ p < 0 then .error (.valueError ("probability must be in [0,1]"))
  else if factor.any (fun f => decide (f ≤ 0)) then
    .error (.valueError ("factor must be greater than 0"))
  else if originCheck ["top_left", "center"] origin then
    .error (.valueError ("origin must be either in [\x27top_left\x27, \x27center\x27] or be a tuple"))
  else if draw < p then
    let image_shape := ImagesBatch.get_image_shape image
    let rescaled_shape : Int × Int :=
      (toInt16 (npRound ((image_shape.1 : Rat) * factorDraw)),
       toInt16 (npRound ((image_shape.2 : Rat) * factorDraw)))
    let rescaled_image := resize_image image rescaled_shape
    .ok (if preserve_shape then preserve_shape_fn image rescaled_image origin else rescaled_image)
  else .error (.unboundLocal ("rescaled_image"))

/-- Embedding of the per-item body of `BaseImagesBatch.rotate`.  The backend
`self._rotate_image` enters as a parameter; `angle` is `some a` for a
deterministic number and `none` for the sampled range case, whose uniform
draw enters as `angleDraw`. -/
def rotate (rotate_image : Img3 → Rat → Bool → Img3) (image : Img3) (p : Rat)
    (angle : Option Rat) (preserve_shape : Bool) (draw angleDraw : Rat) :
    Except PyError Img3 :=
  if p > 1 ∨ p < 0 then .error (.valueError ("probability must be in [0,1]"))
  else if draw < p then
    let ang := match angle with | some a => a | none => angleDraw
    .ok (rotate_image image ang preserve_shape)
  else .ok image

/-- Embedding of the per-item body of `BaseImagesBatch.flip` (dispatching
`self._flip_image` to `ImagesBatch._flip_image`); `draw` decides whether to
flip at all and `lrDraw` picks between the two directions in mode `all`. -/
def flip (image : Img3) (mode : String) (p p_lr : Rat) (draw lrDraw : Rat) :
    Except PyError (Option Img3) :=
  if p > 1 ∨ p < 0 ∨ p_lr < 0 ∨ p_lr > 1 then
    .error (.valueError ("probability must be in [0,1]"))
  else if mode ∉ ["lr", "ud", "all"] then
    .error (.valueError ("`mode` must be one of \x27lr\x27, \x27ud\x27 and \x27all\x27"))
  else if draw < p then
    if mode = "all" then
      .ok (ImagesBatch.flip_image_ image (if lrDraw < p_lr then "lr" else "ud"))
    else .ok (ImagesBatch.flip_image_ image mode)
  else .ok (some image)

/-- Embedding of the per-item body of `BaseImagesBatch.invert`
(`self._invert` dispatches to `ImagesBatch._invert`).  `p_channel` is the
probability array after `reshape(-1)`; `scalarDraw` is the single
`np.random.random()` draw of the scalar branch and `vecDraws` the
`np.random.uniform(size=len(p_channel))` vector of the per-channel branch. -/
def invert (image : Img3) (p_channel : List Rat) (scalarDraw : Rat)
    (vecDraws : List Rat) : Except PyError Img3 :=
  if ∃ q ∈ p_channel, q > 1 ∨ q < 0 then
    .error (.valueError ("probability must be in [0,1]"))
  else
    let channels : List Nat :=
      if p_channel.length = 1 then
        if scalarDraw < p_channel.headD 0 then List.range (chansOf image) else []
      else npWhereGt vecDraws p_channel
    if channels.length > 0 then .ok (ImagesBatch.invert_ image channels)
    else .ok image

/-- Elementwise division of a whole component by 255. -/
def div255 (v : List Img3) : List Img3 :=
  v.map (fun img => img.map (fun row => row.map (fun pix => pix.map (fun x => x / 255))))

/-- Embedding of `BaseImagesBatch.normalize`: replace the named component by
its elementwise quotient by 255 and return `self`
(`self.get(None, components)`, modelled from the spec, returns the whole
component array; a missing attribute raises). -/
def normalize (b : ImagesBatch) (components : String) : Except PyError ImagesBatch :=
  match batchGet b components with
  | none => .error (.attributeError components)
  | some v => .ok (setattr b components (div255 v))

end BaseImagesBatch

end BatchImage

namespace ClassificationMetrics

/-!
The `ClassificationMetrics` implementation (`batchflow/models/metrics.py`)
is not under `src/`; only its test file is.  The definitions below are
modelled from the spec (sections 4.3, 4.4 and 6), with one deliberate
exception: the index convention of the confusion matrix is pinned by the
assertion of `test_confusion_matrix` in
`src/batchflow/tests/classification_metrics_test.py`, which is code of the
repository and therefore the authority; the convention the spec sentence
states is kept alongside under a separate, clearly named definition.
-/

/-- The two prediction encodings. -/
inductive Fmt where
  | labels
  | proba
deriving DecidableEq

/-- A numeric array of rank at most 3 (class indices are carried as exact
rationals so that label equality is exact). -/
inductive NDQ where
  | r0 (v : Rat)
  | r1 (v : List Rat)
  | r2 (v : List (List Rat))
  | r3 (v : List (List (List Rat)))
deriving DecidableEq

/-- The shape of an array (rectangularity assumed, as for numpy arrays). -/
def NDQ.shape : NDQ → List Nat
  | .r0 _ => []
  | .r1 v => [v.length]
  | .r2 v => [v.length, (v.headD []).length]
  | .r3 v => [v.length, (v.headD []).length, ((v.headD []).headD []).length]

/-- Index of the first maximal entry of a vector (`np.argmax`). -/
def argmaxList (l : List Rat) : Nat :=
  (l.enum.foldl (fun best cv => if cv.2 > best.2 then cv else best) (0, l.headD 0)).1

/-- Modelled from the spec: arg-max reduction of an array along a designated
axis, removing the class dimension; `none` when the axis is not a valid
integer axis into the array. -/
def NDQ.argmaxAxis : NDQ → Nat → Option NDQ
  | .r1 v, 0 => some (.r0 (argmaxList v : Nat))
  | .r2 v, 0 => some (.r1 (v.transpose.map (fun col => (argmaxList col : Nat))))
  | .r2 v, 1 => some (.r1 (v.map (fun row => (argmaxList row : Nat))))
  | .r3 v, 0 => some (.r2 (v.transpose.map (fun slab => slab.transpose.map (fun col => (argmaxList col : Nat)))))
  | .r3 v, 1 => some (.r2 (v.map (fun mat => mat.transpose.map (fun col => (argmaxList col : Nat)))))
  | .r3 v, 2 => some (.r2 (v.map (fun mat => mat.map (fun row => (argmaxList row : Nat)))))
  | _, _ => none

/-- Modelled from the spec: batch-dimension inference — a rank-2 array is a
batch of sample vectors (axis 0 the batch axis); rank at most 1 forms one
implicit batch slot. -/
def NDQ.slots : NDQ → List (List Rat)
  | .r0 v => [[v]]
  | .r1 v => [v]
  | .r2 v => v
  | .r3 _ => []

/-- The confusion matrix of one batch slot, in the convention the repository
test `test_confusion_matrix` asserts: entry `[i][j]` counts the samples of
the slot whose predicted class is `i` and whose true class is `j`. -/
def confusionSlot (num_classes : Nat) (tslot pslot : List Rat) : List (List Nat) :=
  (List.range num_classes).map (fun i =>
    (List.range num_classes).map (fun j =>
      ((tslot.zip pslot).filter
        (fun tp => decide (tp.2 = (i : Rat) ∧ tp.1 = (j : Rat)))).length))

/-- The confusion-matrix convention exactly as the spec sentence states it,
for one slot of label vectors: entry `[i][j]` counts samples with true class
`i` and predicted class `j`. -/
def confusionSpecConvention (y_true y_pred : List Nat) (num_classes : Nat) :
    List (List Nat) :=
  (List.range num_classes).map (fun i =>
    (List.range num_classes).map (fun j =>
      ((y_true.zip y_pred).filter (fun tp => decide (tp.1 = i ∧ tp.2 = j))).length))

/-- Modelled from the spec: `ConfusionEngine.build` — format normalization
(`labels` requires exactly equal shapes; `proba` requires an explicit valid
axis, arg-max reduces the predictions, and reduces a one-hot `y_true` of the
same pre-reduction shape), rank validation (rank at most 2 after
normalization), batch inference and per-slot confusion-matrix construction
of shape `(B, C, C)`. -/
def build (y_true y_pred : NDQ) (fmt : Fmt) (axis : Option Nat) (num_classes : Nat) :
    Except BatchImage.PyError (List (List (List Nat))) :=
  match fmt with
  | .labels =>
    if y_true.shape ≠ y_pred.shape then
      .error (.valueError ("shapes of y_true and y_pred must match"))
    else if y_true.shape.length > 2 then
      .error (.valueError ("shapes must match and rank must be at most 2"))
    else .ok ((y_true.slots.zip y_pred.slots).map
      (fun sp => confusionSlot num_classes sp.1 sp.2))
  | .proba =>
    match axis with
    | none => .error (.valueError ("axis cannot be None for probability predictions"))
    | some a =>
      match y_pred.argmaxAxis a with
      | none => .error (.valueError ("axis is not a valid axis into y_pred"))
      | some pred =>
        let t := if y_true.shape = y_pred.shape then (y_true.argmaxAxis a).getD y_true
                 else y_true
        if t.shape ≠ pred.shape then
          .error (.valueError ("shapes of y_true and y_pred must match"))
        else if t.shape.length > 2 then
          .error (.valueError ("shapes must match and rank must be at most 2"))
        else .ok ((t.slots.zip pred.slots).map
          (fun sp => confusionSlot num_classes sp.1 sp.2))

/-- The twelve derived statistics of the metrics module. -/
inductive MetricName where
  | accuracy
  | true_positive_rate
  | false_positive_rate
  | false_negative_rate
  | true_negative_rate
  | positive_predictive_value
  | false_discovery_rate
  | false_omission_rate
  | negative_predictive_value
  | f1_score
  | dice
  | jaccard
deriving DecidableEq

/-- Division with the zero-guard the spec prescribes: a zero denominator
yields 0. -/
def zdiv (a b : Rat) : Rat := if b = 0 then 0 else a / b

/-- Row `i` of a slot matrix (all samples predicted as class `i`). -/
def rowSum (m : List (List Nat)) (i : Nat) : Nat := ((m.getD i []).foldl (· + ·) 0)

/-- Column `j` of a slot matrix (all samples whose true class is `j`). -/
def colSum (m : List (List Nat)) (j : Nat) : Nat :=
  m.foldl (fun acc row => acc + row.getD j 0) 0

/-- Total number of samples of a slot. -/
def totalSum (m : List (List Nat)) : Nat :=
  m.foldl (fun acc row => acc + row.foldl (· + ·) 0) 0

/-- The one-vs-rest counts of class `c` in one slot matrix (convention:
rows are predictions, columns are true classes). -/
def tpOf (m : List (List Nat)) (c : Nat) : Nat := (m.getD c []).getD c 0

def fpOf (m : List (List Nat)) (c : Nat) : Nat := rowSum m c - tpOf m c

def fnOf (m : List (List Nat)) (c : Nat) : Nat := colSum m c - tpOf m c

def tnOf (m : List (List Nat)) (c : Nat) : Nat :=
  totalSum m - tpOf m c - fpOf m c - fnOf m c

/-- Mean of a list of rationals (macro average over classes). -/
def meanList (l : List Rat) : Rat := zdiv (l.foldl (· + ·) 0) l.length

/-- Modelled from the spec: one statistic of one batch slot, a pure formula
over the per-class TP/FP/FN/TN counts of the slot confusion matrix,
macro-averaged over the classes (accuracy reads the diagonal directly). -/
def slotMetric (name : MetricName) (m : List (List Nat)) : Rat :=
  let classes := List.range m.length
  let per := fun (f : Nat → Rat) => meanList (classes.map f)
  let tp := fun c => (tpOf m c : Rat)
  let fp := fun c => (fpOf m c : Rat)
  let fn := fun c => (fnOf m c : Rat)
  let tn := fun c => (tnOf m c : Rat)
  match name with
  | .accuracy => zdiv ((classes.map (fun c => tpOf m c)).foldl (· + ·) 0 : Nat) (totalSum m)
  | .true_positive_rate => per (fun c => zdiv (tp c) (tp c + fn c))
  | .false_positive_rate => per (fun c => zdiv (fp c) (fp c + tn c))
  | .false_negative_rate => per (fun c => zdiv (fn c) (fn c + tp c))
  | .true_negative_rate => per (fun c => zdiv (tn c) (tn c + fp c))
  | .positive_predictive_value => per (fun c => zdiv (tp c) (tp c + fp c))
  | .false_discovery_rate => per (fun c => zdiv (fp c) (fp c + tp c))
  | .false_omission_rate => per (fun c => zdiv (fn c) (fn c + tn c))
  | .negative_predictive_value => per (fun c => zdiv (tn c) (tn c + fn c))
  | .f1_score => per (fun c =>
      let prec := zdiv (tp c) (tp c + fp c)
      let rec_ := zdiv (tp c) (tp c + fn c)
      zdiv (2 * prec * rec_) (prec + rec_))
  | .dice => per (fun c => zdiv (2 * tp c) (2 * tp c + fp c + fn c))
  | .jaccard => per (fun c => zdiv (tp c) (tp c + fp c + fn c))

/-- Modelled from the spec: a metric method of the public API — normalize
the stored prediction pair through `build` and evaluate the statistic on
every batch slot (output of shape `(B,)`, reshape-compatible to `(B, 1)`). -/
def metricValue (name : MetricName) (y_true y_pred : NDQ) (fmt : Fmt)
    (axis : Option Nat) (num_classes : Nat) :
    Except BatchImage.PyError (List Rat) :=
  match build y_true y_pred fmt axis num_classes with
  | .error e => .error e
  | .ok conf => .ok (conf.map (slotMetric name))

end ClassificationMetrics

open BatchImage ClassificationMetrics

/-- C1: if any per-item result is a captured failure, `ImagesBatch.assemble`
raises `RuntimeError` for the whole action and the batch object is left with
every component unchanged — the raise happens before any component is
assigned, so no partial batch is returned. -/
theorem assemble_aborts_unchanged_on_any_failure
    (b : ImagesBatch) (all_res : List PerItemResult) (components : String)
    (h : any_action_failed all_res = true) :
    (b.assemble all_res components).result
        = .error (.runtimeError ("Could not assemble the batch")) ∧
    (b.assemble all_res components).self = b := by
  unfold ImagesBatch.assemble
  rw [if_pos h]
  exact ⟨rfl, rfl⟩

/-- Witness for C1 at a concrete batch and a result list with one captured
failure. -/
theorem assemble_aborts_unchanged_on_any_failure_witness :
    any_action_failed [PerItemResult.failed ("boom"), PerItemResult.ok []] = true ∧
    ((ImagesBatch.mk [(("images"), [])]).assemble
        [PerItemResult.failed ("boom"), PerItemResult.ok []] ("images")).result
        = .error (.runtimeError ("Could not assemble the batch")) ∧
    ((ImagesBatch.mk [(("images"), [])]).assemble
        [PerItemResult.failed ("boom"), PerItemResult.ok []] ("images")).self
        = ImagesBatch.mk [(("images"), [])] :=
  ⟨by decide, assemble_aborts_unchanged_on_any_failure _ _ _ (by decide)⟩

/-- C3 (counterexample): with two captured failures, the error the action
raises is `RuntimeError` with the fixed message
`"Could not assemble the batch"`, whose payload contains neither captured
failure — the raised error does not carry the underlying failures (they are
only printed to stdout). -/
theorem raised_error_omits_captured_failures :
    ((ImagesBatch.mk []).assemble
        [PerItemResult.failed ("boom1"), PerItemResult.failed ("boom2")]
        ("images")).result
      = .error (.runtimeError ("Could not assemble the batch")) ∧
    get_errors [PerItemResult.failed ("boom1"), PerItemResult.failed ("boom2")]
      = [("boom1"), ("boom2")] ∧
    strContains (PyError.payload (.runtimeError ("Could not assemble the batch")))
        ("boom1") = false ∧
    strContains (PyError.payload (.runtimeError ("Could not assemble the batch")))
        ("boom2") = false := by
  decide

/-- C3 (amended): when one or more per-item invocations fail, the action
prints the full list of captured failures (all of them, in order) together
with the traceback of the first failure to stdout, and then raises a single
fatal `RuntimeError` with a fixed message that does not itself carry the
underlying failures. -/
theorem assemble_prints_all_failures_raises_fixed_error
    (b : ImagesBatch) (all_res : List PerItemResult) (components : String)
    (h : any_action_failed all_res = true) :
    (b.assemble all_res components).printed
        = get_errors all_res ++ [tracebackOf ((get_errors all_res).headD (""))] ∧
    (b.assemble all_res components).result
        = .error (.runtimeError ("Could not assemble the batch")) ∧
    ∀ f ∈ get_errors all_res, f ∈ (b.assemble all_res components).printed := by
  unfold ImagesBatch.assemble
  rw [if_pos h]
  refine ⟨rfl, rfl, fun f hf => ?_⟩
  exact List.mem_append_left _ hf

/-- Witness for the amended C3 at a concrete result list with two captured
failures. -/
theorem assemble_prints_all_failures_raises_fixed_error_witness :
    any_action_failed [PerItemResult.failed ("e1"), PerItemResult.failed ("e2")] = true ∧
    (((ImagesBatch.mk []).assemble
        [PerItemResult.failed ("e1"), PerItemResult.failed ("e2")] ("images")).printed
        = get_errors [PerItemResult.failed ("e1"), PerItemResult.failed ("e2")]
          ++ [tracebackOf ((get_errors [PerItemResult.failed ("e1"),
                PerItemResult.failed ("e2")]).headD (""))] ∧
     ((ImagesBatch.mk []).assemble
        [PerItemResult.failed ("e1"), PerItemResult.failed ("e2")] ("images")).result
        = .error (.runtimeError ("Could not assemble the batch")) ∧
     ∀ f ∈ get_errors [PerItemResult.failed ("e1"), PerItemResult.failed ("e2")],
        f ∈ ((ImagesBatch.mk []).assemble
          [PerItemResult.failed ("e1"), PerItemResult.failed ("e2")] ("images")).printed) :=
  ⟨by decide, assemble_prints_all_failures_raises_fixed_error _ _ _ (by decide)⟩

/-- C4 (code bug): `np.stack([])` raises
`ValueError("need at least one array to stack")`, whose message does not
contain the recognized substring; `assemble_component` catches the
`ValueError`, the substring test fails, the except block falls through, and
the final `setattr` reads the never-assigned local `new_images` — so the
action fails with `UnboundLocalError` instead of propagating the original
stacking error unchanged as the spec states. -/
theorem unrecognized_valueerror_swallowed_unbound_local :
    npStack ([] : List Img3)
      = .error (.valueError ("need at least one array to stack")) ∧
    strContains ("need at least one array to stack") ("must have the same shape")
      = false ∧
    (ImagesBatch.mk []).assemble_component [] ("images")
      = .error (.unboundLocal ("new_images")) ∧
    (ImagesBatch.mk []).assemble_component [] ("images")
      ≠ .error (.valueError ("need at least one array to stack")) := by
  decide

/-- C6 (counterexample): under the index convention the claim states — entry
`[b, i, j]` counts samples with true class `i` and predicted class `j` — the
scenario `y_true=[1,1,0,1,0,0]`, `y_pred=[0,0,1,0,0,0]` with 2 classes
yields `[[2,1],[3,0]]`, not the `[[2,3],[1,0]]` the repository test asserts;
the two parts of the claim are incompatible. -/
theorem spec_convention_confusion_differs_from_scenario_value :
    confusionSpecConvention [1, 1, 0, 1, 0, 0] [0, 0, 1, 0, 0, 0] 2
      = [[2, 1], [3, 0]] ∧
    ([[2, 1], [3, 0]] : List (List Nat)) ≠ [[2, 3], [1, 0]] := by
  decide

/-- C6 (amended): with label-format inputs `y_true=[1,1,0,1,0,0]`,
`y_pred=[0,0,1,0,0,0]` and 2 classes, the constructed confusion matrix
equals `[[2,3],[1,0]]`, where entry `[b, i, j]` counts samples in batch-slot
`b` with predicted class `i` and true class `j` (the transposed convention,
as pinned by the assertion of `test_confusion_matrix`). -/
theorem confusion_matrix_scenario_value :
    build (.r1 [1, 1, 0, 1, 0, 0]) (.r1 [0, 0, 1, 0, 0, 0]) .labels none 2
      = .ok [[[2, 3], [1, 0]]] := by
  decide

/-- C7: a prediction pair constructed with `fmt=proba` and `axis=None`
raises the InvalidArgument `ValueError` for every metric method, whatever
the inputs — never a silent best-effort computation. -/
theorem proba_without_axis_raises_for_every_metric
    (name : MetricName) (y_true y_pred : NDQ) (num_classes : Nat) :
    metricValue name y_true y_pred .proba none num_classes
      = .error (.valueError ("axis cannot be None for probability predictions")) := rfl

/-- Looking up the component just set yields the new value. -/
theorem getComps_setComps_self (l : List (String × List Img3)) (n : String)
    (v : List Img3) : getComps (setComps l n v) n = some v := by
  induction l with
  | nil => simp [setComps, getComps]
  | cons kv rest ih =>
    obtain ⟨k, w⟩ := kv
    by_cases hk : k = n
    · simp [setComps, getComps, hk]
    · simp [setComps, getComps, hk, ih]

/-- Setting one component leaves the lookup of every other name unchanged. -/
theorem getComps_setComps_other (l : List (String × List Img3)) (n m : String)
    (v : List Img3) (hnm : m ≠ n) : getComps (setComps l n v) m = getComps l m := by
  have hnm' : n ≠ m := Ne.symm hnm
  induction l with
  | nil => simp [setComps, getComps, hnm']
  | cons kv rest ih =>
    obtain ⟨k, w⟩ := kv
    by_cases hk : k = n
    · subst hk
      simp [setComps, getComps, hnm']
    · simp [setComps, getComps, hk, ih]

/-- C10: `normalize(components)` replaces the named component by the
elementwise quotient of its previous value by 255, leaves every other
component of the batch unchanged, and returns the batch itself. -/
theorem normalize_divides_named_component_only
    (b : ImagesBatch) (components : String) (v : List Img3)
    (h : batchGet b components = some v) :
    BaseImagesBatch.normalize b components
        = .ok (setattr b components (BaseImagesBatch.div255 v)) ∧
    batchGet (setattr b components (BaseImagesBatch.div255 v)) components
        = some (BaseImagesBatch.div255 v) ∧
    ∀ other, other ≠ components →
      batchGet (setattr b components (BaseImagesBatch.div255 v)) other
        = batchGet b other := by
  refine ⟨?_, getComps_setComps_self _ _ _,
    fun other ho => getComps_setComps_other _ _ _ _ ho⟩
  unfold BaseImagesBatch.normalize
  rw [h]

/-- Witness for C10 on a concrete two-component batch: the images component
becomes its quotient by 255 and the labels component is untouched. -/
theorem normalize_divides_named_component_only_witness :
    batchGet (ImagesBatch.mk [(("images"), [[[[510]]]]), (("labels"), [])]) ("images")
      = some [[[[510]]]] ∧
    BaseImagesBatch.normalize
        (ImagesBatch.mk [(("images"), [[[[510]]]]), (("labels"), [])]) ("images")
      = .ok (setattr (ImagesBatch.mk [(("images"), [[[[510]]]]), (("labels"), [])])
              ("images") (BaseImagesBatch.div255 [[[[510]]]])) ∧
    BaseImagesBatch.div255 [[[[510]]]] = [[[[2]]]] ∧
    batchGet (setattr (ImagesBatch.mk [(("images"), [[[[510]]]]), (("labels"), [])])
        ("images") (BaseImagesBatch.div255 [[[[510]]]])) ("labels")
      = batchGet (ImagesBatch.mk [(("images"), [[[[510]]]]), (("labels"), [])]) ("labels") :=
  ⟨by decide,
   (normalize_divides_named_component_only _ _ _ (by decide)).1,
   by norm_num [BaseImagesBatch.div255],
   (normalize_divides_named_component_only _ _ [[[[510]]]] (by decide)).2.2
     ("labels") (by decide)⟩

/-- C8: for the scale, rotate and flip actions a probability `p` with
`p > 1` or `p < 0` makes the per-item call (and hence the whole action) fail
with the InvalidArgument `ValueError`; flip additionally fails when `p_lr`
lies outside `[0,1]`, and — when the probabilities are in range — when
`mode` is not one of `lr`, `ud`, `all`. -/
theorem transform_parameter_validation
    (resize_image : Img3 → Int × Int → Img3)
    (preserve_shape_fn : Img3 → Img3 → OriginArg → Img3)
    (rotate_image : Img3 → Rat → Bool → Img3)
    (image : Img3) (p p_lr : Rat) (factor : List Rat) (preserve_shape : Bool)
    (origin : OriginArg) (angle : Option Rat) (mode : String) (draw d2 : Rat) :
    ((p > 1 ∨ p < 0) →
      BaseImagesBatch.scale resize_image preserve_shape_fn image p factor
          preserve_shape origin draw d2
        = .error (.valueError ("probability must be in [0,1]")) ∧
      BaseImagesBatch.rotate rotate_image image p angle preserve_shape draw d2
        = .error (.valueError ("probability must be in [0,1]")) ∧
      BaseImagesBatch.flip image mode p p_lr draw d2
        = .error (.valueError ("probability must be in [0,1]"))) ∧
    ((p_lr < 0 ∨ p_lr > 1) →
      BaseImagesBatch.flip image mode p p_lr draw d2
        = .error (.valueError ("probability must be in [0,1]"))) ∧
    (mode ∉ (["lr", "ud", "all"] : List String) →
      ¬(p > 1 ∨ p < 0 ∨ p_lr < 0 ∨ p_lr > 1) →
      BaseImagesBatch.flip image mode p p_lr draw d2
        = .error (.valueError ("`mode` must be one of \x27lr\x27, \x27ud\x27 and \x27all\x27"))) := by
  refine ⟨fun hp => ⟨?_, ?_, ?_⟩, fun hplr => ?_, fun hmode hps => ?_⟩
  · unfold BaseImagesBatch.scale
    rw [if_pos hp]
  · unfold BaseImagesBatch.rotate
    rw [if_pos hp]
  · have hc : p > 1 ∨ p < 0 ∨ p_lr < 0 ∨ p_lr > 1 := by tauto
    unfold BaseImagesBatch.flip
    rw [if_pos hc]
  · have hc : p > 1 ∨ p < 0 ∨ p_lr < 0 ∨ p_lr > 1 := by tauto
    unfold BaseImagesBatch.flip
    rw [if_pos hc]
  · unfold BaseImagesBatch.flip
    rw [if_neg hps, if_pos hmode]

/-- Witness for C8: out-of-range `p` fails all three actions, out-of-range
`p_lr` fails flip, and an unrecognized mode fails flip, at concrete
arguments. -/
theorem transform_parameter_validation_witness :
    ((2 : Rat) > 1 ∨ (2 : Rat) < 0) ∧
    BaseImagesBatch.scale (fun _ _ => []) (fun _ _ _ => []) [] 2 [1] true
        (.str ("center")) 0 1
      = .error (.valueError ("probability must be in [0,1]")) ∧
    BaseImagesBatch.rotate (fun i _ _ => i) [] 2 none true 0 1
      = .error (.valueError ("probability must be in [0,1]")) ∧
    BaseImagesBatch.flip [] ("lr") 2 (1/2) 0 0
      = .error (.valueError ("probability must be in [0,1]")) ∧
    BaseImagesBatch.flip [] ("lr") (1/2) 7 0 0
      = .error (.valueError ("probability must be in [0,1]")) ∧
    BaseImagesBatch.flip [] ("diag") (1/2) (1/2) 0 0
      = .error (.valueError ("`mode` must be one of \x27lr\x27, \x27ud\x27 and \x27all\x27")) :=
  have t1 := (transform_parameter_validation (fun _ _ => []) (fun _ _ _ => [])
    (fun i _ _ => i) [] 2 (1/2) [1] true (.str ("center")) none ("lr") 0 1).1
    (by norm_num)
  ⟨by norm_num, t1.1, t1.2.1, t1.2.2,
   (transform_parameter_validation (fun _ _ => []) (fun _ _ _ => [])
      (fun i _ _ => i) [] (1/2) 7 [1] true (.str ("center")) none ("lr") 0 0).2.1
      (by norm_num),
   (transform_parameter_validation (fun _ _ => []) (fun _ _ _ => [])
      (fun i _ _ => i) [] (1/2) (1/2) [1] true (.str ("center")) none ("diag") 0 0).2.2
      (by decide) (by norm_num)⟩

/-- C9: with valid parameters and `p < 1`, whenever the uniform draw is at
least `p` (the transform is not applied), the per-item scale call fails by
reading the never-assigned local `rescaled_image` instead of returning the
original image unchanged. -/
theorem scale_unbound_local_when_not_applied
    (resize_image : Img3 → Int × Int → Img3)
    (preserve_shape_fn : Img3 → Img3 → OriginArg → Img3)
    (image : Img3) (p : Rat) (factor : List Rat) (preserve_shape : Bool)
    (origin : OriginArg) (draw factorDraw : Rat)
    (hp0 : 0 ≤ p) (hp1 : p < 1)
    (hfactor : ∀ f ∈ factor, 0 < f)
    (horigin : originCheck ["top_left", "center"] origin = false)
    (hdraw : p ≤ draw) :
    BaseImagesBatch.scale resize_image preserve_shape_fn image p factor
        preserve_shape origin draw factorDraw
      = .error (.unboundLocal ("rescaled_image")) := by
  have h1 : ¬(p > 1 ∨ p < 0) := by
    push_neg
    exact ⟨le_of_lt hp1, hp0⟩
  have h2 : factor.any (fun f => decide (f ≤ 0)) = false := by
    rw [List.any_eq_false]
    intro f hf
    simpa using (hfactor f hf).not_le
  have h4 : ¬ draw < p := not_lt.mpr hdraw
  unfold BaseImagesBatch.scale
  rw [if_neg h1, h2, horigin]
  simp only [Bool.false_eq_true, if_false]
  rw [if_neg h4]

/-- Witness for C9: a valid call with `p = 1/2` and draw `3/4` fails with
the unbound local instead of returning the image. -/
theorem scale_unbound_local_when_not_applied_witness :
    (0 : Rat) ≤ 1/2 ∧ (1/2 : Rat) < 1 ∧ (∀ f ∈ ([2] : List Rat), 0 < f) ∧
    (1/2 : Rat) ≤ 3/4 ∧
    BaseImagesBatch.scale (fun _ _ => []) (fun _ _ _ => [])
        [[[(7 : Rat)]]] (1/2) [2] true (.str ("center")) (3/4) 2
      = .error (.unboundLocal ("rescaled_image")) :=
  ⟨by norm_num, by norm_num, by decide, by norm_num,
   scale_unbound_local_when_not_applied _ _ _ _ _ _ _ _ _
     (by norm_num) (by norm_num) (by decide) (by decide) (by norm_num)⟩

/-- The running minimum of a fold never exceeds its initial value. -/
theorem foldl_min_le_init (f : Img3 → Nat) (l : List Img3) :
    ∀ init : Nat, l.foldl (fun m a => min m (f a)) init ≤ init := by
  induction l with
  | nil => intro init; simp
  | cons a t ih =>
    intro init
    exact le_trans (ih (min init (f a))) (min_le_left _ _)

/-- The running minimum of a fold is at most `f` of any list member. -/
theorem foldl_min_le_mem (f : Img3 → Nat) (l : List Img3) :
    ∀ (init : Nat) (a : Img3), a ∈ l →
      l.foldl (fun m a => min m (f a)) init ≤ f a := by
  induction l with
  | nil => intro _ a ha; cases ha
  | cons b t ih =>
    intro init a ha
    rcases List.mem_cons.mp ha with h | h
    · subst h
      exact le_trans (foldl_min_le_init f t _) (min_le_right _ _)
    · exact ih _ a h

/-- The elementwise minimum shape is a lower bound for each item's shape. -/
theorem minDim_le_of_mem (f : Img3 → Nat) (xs : List Img3) (a : Img3)
    (ha : a ∈ xs) : minDim f xs ≤ f a := by
  cases xs with
  | nil => cases ha
  | cons x rest =>
    rcases List.mem_cons.mp ha with h | h
    · subst h
      exact foldl_min_le_init f rest _
    · exact foldl_min_le_mem f rest _ a h

/-- A zero fold-minimum comes from the initial value or from a member. -/
theorem foldl_min_eq_zero (f : Img3 → Nat) (l : List Img3) :
    ∀ init : Nat, l.foldl (fun m a => min m (f a)) init = 0 →
      init = 0 ∨ ∃ a ∈ l, f a = 0 := by
  induction l with
  | nil => intro init h; exact Or.inl h
  | cons b t ih =>
    intro init h
    rcases ih _ h with h0 | hex
    · rcases Nat.min_eq_zero_iff.mp h0 with h1 | h1
      · exact Or.inl h1
      · exact Or.inr ⟨b, List.mem_cons_self _ _, h1⟩
    · obtain ⟨a, ha, hfa⟩ := hex
      exact Or.inr ⟨a, List.mem_cons_of_mem _ ha, hfa⟩

/-- If some item has no rows then the minimum column count is zero as well
(a rowless array has no first row to take a column count from). -/
theorem minCols_zero_of_minRows_zero (xs : List Img3) (hne : xs ≠ [])
    (h : minDim rowsOf xs = 0) : minDim colsOf xs = 0 := by
  obtain ⟨a, ha, hra⟩ : ∃ a ∈ xs, rowsOf a = 0 := by
    cases xs with
    | nil => exact absurd rfl hne
    | cons x rest =>
      rcases foldl_min_eq_zero rowsOf rest (rowsOf x) h with h0 | hex
      · exact ⟨x, List.mem_cons_self _ _, h0⟩
      · obtain ⟨a, ha, hfa⟩ := hex
        exact ⟨a, List.mem_cons_of_mem _ ha, hfa⟩
  have hca : colsOf a = 0 := by
    have hnil : a = [] := List.length_eq_zero.mp hra
    simp [hnil, colsOf]
  exact Nat.le_zero.mp (hca ▸ minDim_le_of_mem colsOf xs a ha)

/-- After the recovery crop, every item of the list has the same shape:
the row and column minima, and the common channel count when both minima
are positive. -/
theorem shape3_cropTL_of_mem (xs : List Img3) (c : Nat)
    (hch : ∀ a ∈ xs, chansOf a = c) (a : Img3) (ha : a ∈ xs) :
    shape3 (cropTL a (minDim rowsOf xs) (minDim colsOf xs))
      = (minDim rowsOf xs, minDim colsOf xs,
         if minDim rowsOf xs = 0 ∨ minDim colsOf xs = 0 then 0 else c) := by
  have hra : minDim rowsOf xs ≤ rowsOf a := minDim_le_of_mem rowsOf xs a ha
  have hca : minDim colsOf xs ≤ colsOf a := minDim_le_of_mem colsOf xs a ha
  rcases Nat.eq_zero_or_pos (minDim rowsOf xs) with hr0 | hrpos
  · have hc0 : minDim colsOf xs = 0 :=
      minCols_zero_of_minRows_zero xs (List.ne_nil_of_mem ha) hr0
    simp [hr0, hc0, cropTL, shape3, rowsOf, colsOf, chansOf]
  · obtain ⟨a0, a', rfl⟩ : ∃ a0 a', a = a0 :: a' := by
      cases a with
      | nil => exact absurd (Nat.le_zero.mp hra) (Nat.pos_iff_ne_zero.mp hrpos)
      | cons a0 a' => exact ⟨a0, a', rfl⟩
    obtain ⟨r', hr'⟩ : ∃ r', minDim rowsOf xs = r' + 1 :=
      ⟨minDim rowsOf xs - 1, by omega⟩
    have hrows : rowsOf (cropTL (a0 :: a') (minDim rowsOf xs) (minDim colsOf xs))
        = minDim rowsOf xs := by
      simp only [cropTL, rowsOf, List.length_map, List.length_take]
      exact Nat.min_eq_left hra
    have hclen : colsOf (a0 :: a') = a0.length := rfl
    have hcols : colsOf (cropTL (a0 :: a') (minDim rowsOf xs) (minDim colsOf xs))
        = minDim colsOf xs := by
      simp only [cropTL, colsOf, hr', List.take_succ_cons, List.map_cons, List.headD_cons,
        List.length_take]
      exact Nat.min_eq_left (hclen ▸ hca)
    have hchans : chansOf (cropTL (a0 :: a') (minDim rowsOf xs) (minDim colsOf xs))
        = if minDim rowsOf xs = 0 ∨ minDim colsOf xs = 0 then 0 else c := by
      rcases Nat.eq_zero_or_pos (minDim colsOf xs) with hcm0 | hcmpos
      · simp [chansOf, cropTL, hr', hcm0]
      · obtain ⟨p0, p', hp⟩ : ∃ p0 p', a0 = p0 :: p' := by
          cases a0 with
          | nil =>
            exfalso
            rw [hclen] at hca
            simp only [List.length_nil, Nat.le_zero] at hca
            omega
          | cons p0 p' => exact ⟨p0, p', rfl⟩
        obtain ⟨c', hc'⟩ : ∃ c', minDim colsOf xs = c' + 1 :=
          ⟨minDim colsOf xs - 1, by omega⟩
        have hpc : p0.length = c := by
          have := hch (a0 :: a') ha
          simp only [chansOf, List.headD_cons, hp] at this
          exact this
        simp [chansOf, cropTL, hr', hc', hp, hpc]
    have hsplit : shape3 (cropTL (a0 :: a') (minDim rowsOf xs) (minDim colsOf xs))
        = (rowsOf (cropTL (a0 :: a') (minDim rowsOf xs) (minDim colsOf xs)),
           colsOf (cropTL (a0 :: a') (minDim rowsOf xs) (minDim colsOf xs)),
           chansOf (cropTL (a0 :: a') (minDim rowsOf xs) (minDim colsOf xs))) := rfl
    rw [hsplit, hrows, hcols, hchans]

/-- Stacking the cropped items always succeeds when the items share a
channel count. -/
theorem npStack_map_cropTL (xs : List Img3) (c : Nat) (hne : xs ≠ [])
    (hch : ∀ a ∈ xs, chansOf a = c) :
    npStack (xs.map (fun arr => cropTL arr (minDim rowsOf xs) (minDim colsOf xs)))
      = .ok (xs.map (fun arr => cropTL arr (minDim rowsOf xs) (minDim colsOf xs))) := by
  obtain ⟨x, rest, rfl⟩ : ∃ x rest, xs = x :: rest := by
    cases xs with
    | nil => exact absurd rfl hne
    | cons x rest => exact ⟨x, rest, rfl⟩
  rw [List.map_cons]
  simp only [npStack]
  rw [dif_pos]
  intro a ha
  rcases List.mem_cons.mp ha with h | h
  · rw [h]
  · obtain ⟨bimg, hb, rfl⟩ := List.mem_map.mp h
    rw [shape3_cropTL_of_mem (x :: rest) c hch bimg (List.mem_cons_of_mem _ hb),
        shape3_cropTL_of_mem (x :: rest) c hch x (List.mem_cons_self _ _)]

/-- C2 (counterexample): two items of shapes (2, 2, 1) and (2, 2, 2) make
the first stack fail with the recognized shape-mismatch condition, but the
recovery crop only trims rows and columns, so the channel mismatch survives
and the retried stack fails again — the retry does not succeed for every
recognized shape mismatch. -/
theorem crop_retry_fails_on_channel_mismatch :
    npStack [[[[1], [2]], [[3], [4]]], [[[1, 2], [3, 4]], [[5, 6], [7, 8]]]]
      = .error (.valueError ("all input arrays must have the same shape")) ∧
    strContains ("all input arrays must have the same shape")
        ("must have the same shape") = true ∧
    (ImagesBatch.mk []).assemble_component
        [[[[1], [2]], [[3], [4]]], [[[1, 2], [3, 4]], [[5, 6], [7, 8]]]] ("images")
      = .error (.valueError ("all input arrays must have the same shape")) := by
  decide

/-- C2 (amended): when stacking fails with the recognized shape-mismatch
condition, the assembler crops every item to the elementwise minimum shape
over rows and columns (top-left crop, discarding excess rows and columns)
and retries the stack; the retry succeeds whenever the items agree beyond
rows and columns (equal channel extents), and then the assembled component
is the list of cropped items: leading item axis of length N and row/column
extents equal to the minima across items. -/
theorem assemble_component_crop_retry
    (b : ImagesBatch) (components : String) (xs : List Img3) (c : Nat)
    (hne : xs ≠ [])
    (_hwf : ∀ a ∈ xs, wfImg a)
    (hch : ∀ a ∈ xs, chansOf a = c)
    (hdiff : ¬ ∀ a ∈ xs, shape3 a = shape3 (xs.headD [])) :
    ImagesBatch.assemble_component b xs components
      = .ok (setattr b components
          (xs.map (fun arr => cropTL arr (minShape xs).1 (minShape xs).2.1))) ∧
    (xs.map (fun arr => cropTL arr (minShape xs).1 (minShape xs).2.1)).length
      = xs.length ∧
    ∀ a ∈ xs.map (fun arr => cropTL arr (minShape xs).1 (minShape xs).2.1),
      rowsOf a = (minShape xs).1 ∧ colsOf a = (minShape xs).2.1 := by
  obtain ⟨x, rest, rfl⟩ : ∃ x rest, xs = x :: rest := by
    cases xs with
    | nil => exact absurd rfl hne
    | cons x rest => exact ⟨x, rest, rfl⟩
  have hstack1 : npStack (x :: rest)
      = .error (.valueError ("all input arrays must have the same shape")) := by
    simp only [npStack]
    rw [dif_neg]
    intro hall
    exact hdiff (by simpa using hall)
  have hretry : npStack ((x :: rest).map
        (fun arr => cropTL arr (minShape (x :: rest)).1 (minShape (x :: rest)).2.1))
      = .ok ((x :: rest).map
        (fun arr => cropTL arr (minShape (x :: rest)).1 (minShape (x :: rest)).2.1)) :=
    npStack_map_cropTL (x :: rest) c (by simp) hch
  have hsub : strContains ("all input arrays must have the same shape")
      ("must have the same shape") = true := by decide
  refine ⟨?_, by simp, ?_⟩
  · simp only [ImagesBatch.assemble_component, hstack1, hsub, if_true]
    rw [hretry]
  · intro a ha
    obtain ⟨bimg, hb, rfl⟩ := List.mem_map.mp ha
    have hsh := shape3_cropTL_of_mem (x :: rest) c hch bimg hb
    exact ⟨congrArg (fun t => t.1) hsh, congrArg (fun t => t.2.1) hsh⟩

/-- Witness for the amended C2: items of shapes (3, 2, 1) and (2, 3, 1)
reconcile to the common shape (2, 2, 1): the assembled component is the two
top-left-cropped items. -/
theorem assemble_component_crop_retry_witness :
    (∀ a ∈ ([[[[1], [2]], [[3], [4]], [[5], [6]]],
             [[[1], [2], [3]], [[4], [5], [6]]]] : List Img3), wfImg a) ∧
    (∀ a ∈ ([[[[1], [2]], [[3], [4]], [[5], [6]]],
             [[[1], [2], [3]], [[4], [5], [6]]]] : List Img3), chansOf a = 1) ∧
    ¬(∀ a ∈ ([[[[1], [2]], [[3], [4]], [[5], [6]]],
              [[[1], [2], [3]], [[4], [5], [6]]]] : List Img3),
        shape3 a = shape3 (([[[[1], [2]], [[3], [4]], [[5], [6]]],
              [[[1], [2], [3]], [[4], [5], [6]]]] : List Img3).headD [])) ∧
    (ImagesBatch.mk []).assemble_component
        [[[[1], [2]], [[3], [4]], [[5], [6]]], [[[1], [2], [3]], [[4], [5], [6]]]]
        ("images")
      = .ok (setattr (ImagesBatch.mk []) ("images")
          (([[[[1], [2]], [[3], [4]], [[5], [6]]],
             [[[1], [2], [3]], [[4], [5], [6]]]] : List Img3).map
            (fun arr => cropTL arr
              (minShape [[[[1], [2]], [[3], [4]], [[5], [6]]],
                 [[[1], [2], [3]], [[4], [5], [6]]]]).1
              (minShape [[[[1], [2]], [[3], [4]], [[5], [6]]],
                 [[[1], [2], [3]], [[4], [5], [6]]]]).2.1))) ∧
    (([[[[1], [2]], [[3], [4]], [[5], [6]]],
       [[[1], [2], [3]], [[4], [5], [6]]]] : List Img3).map
      (fun arr => cropTL arr
        (minShape [[[[1], [2]], [[3], [4]], [[5], [6]]],
           [[[1], [2], [3]], [[4], [5], [6]]]]).1
        (minShape [[[[1], [2]], [[3], [4]], [[5], [6]]],
           [[[1], [2], [3]], [[4], [5], [6]]]]).2.1))
      = [[[[1], [2]], [[3], [4]]], [[[1], [2]], [[4], [5]]]] :=
  ⟨by decide, by decide, by decide,
   (assemble_component_crop_retry _ _ _ 1 (by decide) (by decide) (by decide)
      (by decide)).1,
   by decide⟩

/-- The multiplier arithmetic of `_invert` agrees pointwise with selective
inversion, for uint8-range pixel values and any selector that matches
channel membership on the pixel's indices. -/
theorem invPix_eq_selPix (channels : List Nat) (sel : Nat → Bool) :
    ∀ (pix : List Pixel) (k : Nat),
      (∀ i, k ≤ i → i < k + pix.length → decide (i ∈ channels) = sel i) →
      (∀ v ∈ pix, 0 ≤ v ∧ v ≤ 255) →
      invPix channels k pix = selPix sel k pix := by
  intro pix
  induction pix with
  | nil => intro k _ _; rfl
  | cons v rest ih =>
    intro k hagree hbound
    have hv := hbound v (List.mem_cons_self _ _)
    have hk : decide (k ∈ channels) = sel k :=
      hagree k (le_refl k) (by simp only [List.length_cons]; omega)
    unfold invPix selPix
    congr 1
    · by_cases hmem : k ∈ channels
      · rw [if_pos hmem, if_pos (by rw [← hk]; simpa using hmem)]
        exact abs_of_nonneg (by linarith [hv.2])
      · rw [if_neg hmem, if_neg (by rw [← hk]; simpa using hmem)]
        rw [zero_sub, abs_neg]
        exact abs_of_nonneg hv.1
    · exact ih (k + 1) (fun i h1 h2 => hagree i (by omega) (by simp at h2 ⊢; omega))
        (fun w hw => hbound w (List.mem_cons_of_mem _ hw))

/-- If no channel below the bound is selected, selective inversion is the
identity on the pixel. -/
theorem selPix_id (sel : Nat → Bool) :
    ∀ (pix : List Pixel) (k : Nat),
      (∀ i, k ≤ i → i < k + pix.length → sel i = false) →
      selPix sel k pix = pix := by
  intro pix
  induction pix with
  | nil => intro k _; rfl
  | cons v rest ih =>
    intro k hsel
    unfold selPix
    rw [if_neg (by rw [hsel k (le_refl k) (by simp only [List.length_cons]; omega)]; simp)]
    rw [ih (k + 1) (fun i h1 h2 => hsel i (by omega) (by simp at h2 ⊢; omega))]

/-- Membership in `np.where(draws > ps)[0]`. -/
theorem mem_npWhereGt_iff (draws ps : List Rat) (i : Nat) :
    i ∈ npWhereGt draws ps ↔
      ∃ dp : Rat × Rat, (draws.zip ps)[i]? = some dp ∧ dp.1 > dp.2 := by
  unfold npWhereGt
  simp only [List.mem_map, List.mem_filter]
  constructor
  · rintro ⟨⟨j, dp⟩, ⟨hmem, hgt⟩, rfl⟩
    exact ⟨dp, List.mk_mem_enum_iff_getElem?.mp hmem, of_decide_eq_true hgt⟩
  · rintro ⟨dp, hget, hgt⟩
    exact ⟨(i, dp), ⟨List.mk_mem_enum_iff_getElem?.mpr hget, decide_eq_true hgt⟩, rfl⟩

/-- Below the common length, membership in the selected-channel list is
exactly the draw-exceeds-probability test on the vectors. -/
theorem decide_mem_npWhereGt (draws ps : List Rat)
    (hlen : draws.length = ps.length) (i : Nat) (hi : i < ps.length) :
    decide (i ∈ npWhereGt draws ps) = decide (draws.getD i 0 > ps.getD i 0) := by
  have hid : i < draws.length := by omega
  have hiz : i < (draws.zip ps).length := by
    rw [List.length_zip]
    omega
  have hzip : (draws.zip ps)[i]? = some (draws.getD i 0, ps.getD i 0) := by
    rw [List.getElem?_eq_getElem hiz, List.getElem_zip,
      List.getD_eq_getElem?_getD, List.getD_eq_getElem?_getD,
      List.getElem?_eq_getElem hid, List.getElem?_eq_getElem hi]
    rfl
  rw [decide_eq_decide, mem_npWhereGt_iff]
  constructor
  · rintro ⟨dp, hdp, hgt⟩
    rw [hzip] at hdp
    cases Option.some.inj hdp
    exact hgt
  · intro h
    exact ⟨_, hzip, h⟩

/-- `_invert` equals selective inversion for any selector agreeing with
channel membership below the channel count. -/
theorem invert_image_eq_inverted (image : Img3) (channels : List Nat)
    (sel : Nat → Bool)
    (hagree : ∀ i, i < chansOf image → decide (i ∈ channels) = sel i)
    (hpix : ∀ row ∈ image, ∀ pix ∈ row,
      (∀ v ∈ pix, 0 ≤ v ∧ v ≤ 255) ∧ pix.length = chansOf image) :
    ImagesBatch.invert_ image channels = invertedImage image sel := by
  unfold ImagesBatch.invert_ invertedImage
  refine List.map_congr_left (fun row hrow => ?_)
  refine List.map_congr_left (fun pix hp => ?_)
  obtain ⟨hb, hlenp⟩ := hpix row hrow pix hp
  exact invPix_eq_selPix channels sel pix 0
    (fun i h1 h2 => hagree i (by omega)) hb

/-- Selective inversion with a selector that is false below the channel
count leaves the image unchanged. -/
theorem inverted_image_id (image : Img3) (sel : Nat → Bool)
    (hsel : ∀ i, i < chansOf image → sel i = false)
    (hpix : ∀ row ∈ image, ∀ pix ∈ row, pix.length = chansOf image) :
    invertedImage image sel = image := by
  unfold invertedImage
  have hrow : ∀ row ∈ image, row.map (fun pix => selPix sel 0 pix) = row := by
    intro row hrow
    have : ∀ pix ∈ row, selPix sel 0 pix = pix := by
      intro pix hp
      exact selPix_id sel pix 0
        (fun i h1 h2 => hsel i (by rw [← hpix row hrow pix hp]; omega))
    exact (List.map_congr_left this).trans (List.map_id row)
  exact (List.map_congr_left hrow).trans (List.map_id image)

/-- C5: with every entry of `p_channel` in `[0,1]`, `invert` inverts exactly
the channels whose fresh uniform draw exceeds their `p_channel` entry (the
entry is the probability of NOT inverting); a scalar `p_channel` makes a
single draw decide all channels — below it every channel of the image is
inverted, otherwise no channel is and the image is returned unchanged. -/
theorem invert_channel_selection
    (image : Img3) (p_channel : List Rat) (scalarDraw : Rat) (vecDraws : List Rat)
    (hvalid : ∀ q ∈ p_channel, 0 ≤ q ∧ q ≤ 1)
    (hpix : ∀ row ∈ image, ∀ pix ∈ row,
      (∀ v ∈ pix, 0 ≤ v ∧ v ≤ 255) ∧ pix.length = chansOf image) :
    (p_channel.length ≠ 1 → vecDraws.length = p_channel.length →
      p_channel.length = chansOf image →
      BaseImagesBatch.invert image p_channel scalarDraw vecDraws
        = .ok (invertedImage image
            (fun ch => decide (vecDraws.getD ch 0 > p_channel.getD ch 0)))) ∧
    (p_channel.length = 1 →
      (scalarDraw < p_channel.headD 0 →
        BaseImagesBatch.invert image p_channel scalarDraw vecDraws
          = .ok (invertedImage image (fun _ => true))) ∧
      (¬ scalarDraw < p_channel.headD 0 →
        BaseImagesBatch.invert image p_channel scalarDraw vecDraws
          = .ok image)) := by
  have hval : ¬∃ q ∈ p_channel, q > 1 ∨ q < 0 := by
    push_neg
    intro q hq
    exact ⟨(hvalid q hq).2, (hvalid q hq).1⟩
  constructor
  · intro hne1 hlen hchlen
    simp only [BaseImagesBatch.invert, if_neg hval, if_neg hne1]
    have hagree : ∀ i, i < chansOf image →
        decide (i ∈ npWhereGt vecDraws p_channel)
          = decide (vecDraws.getD i 0 > p_channel.getD i 0) := by
      intro i hi
      exact decide_mem_npWhereGt vecDraws p_channel hlen i (by omega)
    by_cases hc : (npWhereGt vecDraws p_channel).length > 0
    · rw [if_pos hc, invert_image_eq_inverted image _ _ hagree hpix]
    · rw [if_neg hc]
      have hempty : npWhereGt vecDraws p_channel = [] := by
        cases h : npWhereGt vecDraws p_channel with
        | nil => rfl
        | cons a t => rw [h] at hc; simp at hc
      congr 1
      symm
      apply inverted_image_id
      · intro i hi
        have hag := hagree i hi
        rw [hempty] at hag
        simpa using hag.symm
      · exact fun row hrow pix hp => (hpix row hrow pix hp).2
  · intro h1
    refine ⟨fun hlt => ?_, fun hge => ?_⟩
    · simp only [BaseImagesBatch.invert, if_neg hval, if_pos h1, if_pos hlt]
      by_cases hc : (List.range (chansOf image)).length > 0
      · rw [if_pos hc,
          invert_image_eq_inverted image _ (fun _ => true)
            (fun i hi => by simp [List.mem_range, hi]) hpix]
      · rw [if_neg hc]
        have hch0 : chansOf image = 0 := by
          simp only [List.length_range] at hc
          omega
        congr 1
        symm
        apply inverted_image_id
        · intro i hi
          rw [hch0] at hi
          exact absurd hi (Nat.not_lt_zero i)
        · exact fun row hrow pix hp => (hpix row hrow pix hp).2
    · simp only [BaseImagesBatch.invert, if_neg hval, if_pos h1, if_neg hge]
      simp

/-- Witness for C5 at a 1x1 two-channel image: the vector draws select
exactly channel 0, which becomes `255 - 10 = 245` while channel 1 keeps its
value. -/
theorem invert_channel_selection_witness :
    (∀ q ∈ ([0, 1] : List Rat), 0 ≤ q ∧ q ≤ 1) ∧
    (∀ row ∈ ([[[10, 20]]] : Img3), ∀ pix ∈ row,
      (∀ v ∈ pix, 0 ≤ v ∧ v ≤ 255) ∧ pix.length = chansOf [[[10, 20]]]) ∧
    BaseImagesBatch.invert [[[10, 20]]] [0, 1] 0 [1, 0]
      = .ok (invertedImage [[[10, 20]]]
          (fun ch => decide (([1, 0] : List Rat).getD ch 0
            > ([0, 1] : List Rat).getD ch 0))) ∧
    invertedImage [[[10, 20]]]
        (fun ch => decide (([1, 0] : List Rat).getD ch 0
          > ([0, 1] : List Rat).getD ch 0))
      = [[[245, 20]]] :=
  ⟨by decide, by decide,
   (invert_channel_selection _ _ _ _ (by decide) (by decide)).1
     (by decide) (by decide) (by decide),
   by norm_num [invertedImage, selPix]⟩
